import Mathlib

set_option maxRecDepth 100000

/-!
Shallow embedding of the protocol core of `src/main.c` (Smart Car Park
STM32 controller): the CRC-8 checksum unit (`CalculateCRC8`), the frame
encoder (`SendPacket`), the byte-driven receive state machine
(`HAL_UART_RxCpltCallback`, modelled as `rxStep`/`rxFeed`), the event
dispatcher (`ProcessReceivedPacket`), the servo clamp (`SetServoAngle`)
and the debounced presence monitor of the main loop (`loopTick`).

Bytes are `Nat` values; `uint8_t` arithmetic is made explicit with
`% 256` where the C type truncates.  Side effects (UART transmit, OLED
draw, PWM compare write) are reified as an `Effect` list.
-/

/-- Constant `PACKET_START` from main.c line 19. -/
def PACKET_START : Nat := 0xAA

/-- Constant `BUFFER_SIZE` from main.c line 20: capacity of `packetBuffer`,
`rxBuffer`, `txBuffer` and the encoder's `packet` array. -/
def BUFFER_SIZE : Nat := 32

/-- Constant `DEBOUNCE_TIME` from main.c line 18 (ms). -/
def DEBOUNCE_TIME : Nat := 50

/-- One shift iteration of the inner loop of `CalculateCRC8`
(main.c lines 302-308): `if (crc & 0x80) crc = (crc << 1) ^ 0x07; else
crc = crc << 1;` on a `uint8_t`. -/
def crc8_step (c : Nat) : Nat :=
  if 128 ≤ c % 256 then ((c % 256) * 2) % 256 ^^^ 0x07 else ((c % 256) * 2) % 256

/-- One outer-loop iteration of `CalculateCRC8` (main.c lines 300-309):
`crc ^= data[i]` followed by eight shift iterations. -/
def crc8_update (crc b : Nat) : Nat :=
  crc8_step^[8] ((crc ^^^ b) % 256)

/-- Function `CalculateCRC8` (main.c lines 295-312): CRC over a byte span,
starting from `crc = 0`.  The C function receives a pointer and a
length; here the span is the list itself. -/
def CalculateCRC8 (data : List Nat) : Nat :=
  data.foldl crc8_update 0

/-- Variant of `CalculateCRC8` resumed from an arbitrary running value instead of
0: used to state the incremental-computation property. -/
def crc8_from (init : Nat) (data : List Nat) : Nat :=
  data.foldl crc8_update init

/-- Reference CRC-8 written from the published algorithm description:
polynomial 0x07, initial value 0x00, no input/output reflection,
MSB-first (test bit 7, shift left), XOR-in at the top of each byte.
Stated independently of `CalculateCRC8` to compare the two. -/
def crc8_ref_shift (c : Nat) : Nat :=
  if Nat.testBit c 7 then (c * 2) % 256 ^^^ 0x07 else (c * 2) % 256

/-- Reference CRC-8: one byte is absorbed by XOR-ing it in at the top
and then shifting eight times, MSB first. -/
def crc8_ref_byte (c b : Nat) : Nat :=
  (List.range 8).foldl (fun a _ => crc8_ref_shift a) ((c ^^^ b) % 256)

/-- Reference CRC-8 over a byte list, initial value 0. -/
def crc8_ref (data : List Nat) : Nat :=
  data.foldl crc8_ref_byte 0

/-- Function `SendPacket` (main.c lines 222-242): builds
`[PACKET_START, dataLength+1, eventId, data..., crc]` where the CRC is
computed over `&packet[2]` for `dataLength + 1` bytes, i.e. over
`eventId :: data`.  The length byte is a `uint8_t`, hence `% 256`. -/
def SendPacket (eventId : Nat) (data : List Nat) : List Nat :=
  PACKET_START :: (data.length + 1) % 256 :: (eventId :: data) ++ [CalculateCRC8 (eventId :: data)]

/-- Reified side effects of the dispatcher and its collaborators:
a UART transmission, an OLED draw (`OLED_Display`), or a PWM
compare-register write (`__HAL_TIM_SET_COMPARE`). -/
inductive Effect where
  | uartTx : List Nat → Effect
  | oledShow : List Nat → Effect
  | pwmSet : Nat → Effect
deriving DecidableEq

/-- The bytes of the `"OK\n"` reply: `HAL_UART_Transmit(&huart2, txBuffer, 3, ...)`
after `strcpy(txBuffer, "OK\n")` (main.c lines 177-178). -/
def okReply : List Nat := [0x4F, 0x4B, 0x0A]

/-- The bytes of the `"ERR\n"` reply: 4 bytes transmitted
(main.c lines 214-215). -/
def errReply : List Nat := [0x45, 0x52, 0x52, 0x0A]

/-- String literal `"Lot Full"` as ASCII bytes (main.c line 206). -/
def lotFullMsg : List Nat := [76, 111, 116, 32, 70, 117, 108, 108]

/-- String literal `"Spaces Available"` as ASCII bytes (main.c line 208). -/
def spacesAvailableMsg : List Nat :=
  [83, 112, 97, 99, 101, 115, 32, 65, 118, 97, 105, 108, 97, 98, 108, 101]

/-- Function `SetServoAngle` (main.c lines 276-290): clamps the angle to 180 and
writes the PWM compare value `50 + angle * 100 / 180`. -/
def SetServoAngle (angle : Nat) : Effect :=
  let a := if angle > 180 then 180 else angle
  Effect.pwmSet (50 + a * 100 / 180)

/-- The bytes `OLED_Display` actually renders from a `char*`: the data
up to (excluding) the first NUL, C-string semantics (main.c line 184). -/
def cstr (l : List Nat) : List Nat := l.takeWhile (fun b => b != 0)

/-- Body of the `switch (eventId)` in `ProcessReceivedPacket`
(main.c lines 181-211): the collaborator writes performed for a given
event id and payload.  Event ids `0x03` and any unknown id fall through
the switch with no action. -/
def dispatchActions (eventId : Nat) (data : List Nat) : List Effect :=
  match eventId with
  | 1 => [Effect.oledShow (cstr data)]
  | 2 => [SetServoAngle (data.getD 0 0)]
  | 4 => if data.getD 0 0 = 1 then [SetServoAngle 90] else [SetServoAngle 0]
  | 5 => if data.getD 0 0 = 1 then [Effect.oledShow lotFullMsg] else [Effect.oledShow spacesAvailableMsg]
  | _ => []

/-- The CRC comparison of `ProcessReceivedPacket` (main.c lines 168-175):
`receivedCRC = buffer[2 + length]` against
`CalculateCRC8(&buffer[2], length)` where `length = buffer[1]`. -/
def procValid (buffer : List Nat) : Bool :=
  buffer.getD (2 + buffer.getD 1 0) 0 == CalculateCRC8 ((buffer.drop 2).take (buffer.getD 1 0))

/-- Function `ProcessReceivedPacket` (main.c lines 166-217) as its effect list:
on a matching CRC, transmit `"OK\n"` then run the switch on
`eventId = buffer[2]` with `data = &buffer[3]`; otherwise transmit
`"ERR\n"` only. -/
def ProcessReceivedPacket (buffer : List Nat) : List Effect :=
  if procValid buffer then
    Effect.uartTx okReply :: dispatchActions (buffer.getD 2 0) (buffer.drop 3)
  else
    [Effect.uartTx errReply]

/-- Decoder session state of `HAL_UART_RxCpltCallback` (main.c lines
124-127): `buf` holds the bytes written to `packetBuffer` so far (so
`packetIndex = buf.length`), `st` is `packetState`, `plen` is
`packetLength`. -/
structure RxState where
  buf : List Nat
  st : Nat
  plen : Nat
deriving DecidableEq

/-- The decoder's power-on state: `packetIndex = 0`, `packetState = 0`,
`packetLength = 0`. -/
def rxInit : RxState := ⟨[], 0, 0⟩

/-- One invocation of `HAL_UART_RxCpltCallback` (main.c lines 129-156)
on a received byte `b`: the `switch (packetState)` machine.  Returns the
new session state and, when `packetIndex >= packetLength + 3` fires, the
completed frame handed to `ProcessReceivedPacket`. -/
def rxStep (s : RxState) (b : Nat) : RxState × Option (List Nat) :=
  match s.st with
  | 0 => if b = PACKET_START then (⟨[PACKET_START], 1, s.plen⟩, none) else (s, none)
  | 1 => (⟨s.buf ++ [b], 2, b⟩, none)
  | 2 =>
      let buf' := s.buf ++ [b]
      if s.plen + 3 ≤ buf'.length then (⟨[], 0, s.plen⟩, some buf')
      else (⟨buf', 2, s.plen⟩, none)
  | _ => (s, none)

/-- Feed a byte sequence to the decoder one byte at a time, collecting
every completed frame in arrival order. -/
def rxFeed (s : RxState) (bytes : List Nat) : RxState × List (List Nat) :=
  match bytes with
  | [] => (s, [])
  | b :: rest =>
      let p := rxStep s b
      let q := rxFeed p.1 rest
      (q.1, p.2.toList ++ q.2)

/-- Presence-monitor state of the main loop (main.c lines 42-45):
`carDetected`, `lastCarDetected`, `lastDebounceTime`,
`lastDetectionSendTime`. -/
structure PresenceState where
  carDetected : Nat
  lastCarDetected : Nat
  lastDebounceTime : Nat
  lastDetectionSendTime : Nat
deriving DecidableEq

/-- The power-on presence state: all globals zero-initialised. -/
def presenceInit : PresenceState := ⟨0, 0, 0, 0⟩

/-- An emission of the presence monitor: a debounced-change
`SendPacket(EVENT_CAR_DETECT, ...)` or the 1 s heartbeat resend. -/
inductive PEvent where
  | change : Nat → PEvent
  | heartbeat : Nat → PEvent
deriving DecidableEq

/-- One iteration of the main loop body (main.c lines 91-116) at time
`now` (`HAL_GetTick()`) with raw sensor reading `raw`: debounce-reset,
debounced-change send, then the periodic 1 s resend. -/
def loopTick (s : PresenceState) (now raw : Nat) : PresenceState × List PEvent :=
  let ldt := if raw ≠ s.lastCarDetected then now else s.lastDebounceTime
  let cd := if DEBOUNCE_TIME < now - ldt ∧ s.carDetected ≠ raw then raw else s.carDetected
  let ev1 : List PEvent :=
    if DEBOUNCE_TIME < now - ldt ∧ s.carDetected ≠ raw then [PEvent.change raw] else []
  let ev2 : List PEvent :=
    if 1000 < now - s.lastDetectionSendTime then [PEvent.heartbeat cd] else []
  let ldst := if 1000 < now - s.lastDetectionSendTime then now else s.lastDetectionSendTime
  (⟨cd, raw, ldt, ldst⟩, ev1 ++ ev2)

/-- Run the main loop over a list of `(now, raw)` ticks, collecting
emissions in order. -/
def runTicks (s : PresenceState) (ticks : List (Nat × Nat)) : PresenceState × List PEvent :=
  match ticks with
  | [] => (s, [])
  | (now, raw) :: rest =>
      let p := loopTick s now raw
      let q := runTicks p.1 rest
      (q.1, p.2 ++ q.2)

/-- Counts the debounced-change emissions (not heartbeats). -/
def changeCount (evs : List PEvent) : Nat :=
  evs.countP (fun e => match e with | PEvent.change _ => true | _ => false)

/-- A raw-reading trace "toggles faster than the debounce interval":
at every tick the time since the most recent raw change (or since
`lastChange` if none yet) is at most `DEBOUNCE_TIME`.  `prev` is the
reading at the previous tick. -/
def fastToggle : Nat → Nat → List (Nat × Nat) → Bool
  | _, _, [] => true
  | prev, lastChange, (t, r) :: rest =>
      (if r = prev then decide (t - lastChange ≤ DEBOUNCE_TIME) else true)
        && fastToggle r (if r = prev then lastChange else t) rest

/-- Returns `true` exactly on UART transmissions. -/
def Effect.isTx : Effect → Bool
  | Effect.uartTx _ => true
  | _ => false

/-! ### Checksum unit -/

theorem crc8_step_lt : ∀ c < 256, crc8_step c < 256 := by decide

theorem crc8_ref_shift_eq : ∀ c < 256, crc8_ref_shift c = crc8_step c := by decide

theorem crc8_iterate_eq : ∀ (n c : Nat), c < 256 → crc8_ref_shift^[n] c = crc8_step^[n] c := by
  intro n
  induction n with
  | zero => intro c _; rfl
  | succ n ih =>
      intro c hc
      rw [Function.iterate_succ_apply, Function.iterate_succ_apply, crc8_ref_shift_eq c hc]
      exact ih _ (crc8_step_lt _ hc)

theorem range_foldl_iterate (f : Nat → Nat) :
    ∀ (n x : Nat), (List.range n).foldl (fun a _ => f a) x = f^[n] x := by
  intro n
  induction n with
  | zero => intro x; rfl
  | succ n ih =>
      intro x
      rw [List.range_succ, List.foldl_append, ih, Function.iterate_succ_apply']
      rfl

theorem crc8_ref_byte_eq : ∀ c b, crc8_ref_byte c b = crc8_update c b := by
  intro c b
  unfold crc8_ref_byte crc8_update
  rw [range_foldl_iterate]
  exact crc8_iterate_eq 8 _ (Nat.mod_lt _ (by norm_num))

/-- C4: `CalculateCRC8` is a pure, deterministic function of the byte
span; it coincides with the reference CRC-8 (polynomial 0x07, initial
value 0x00, no reflection, MSB-first, XOR-in at the top of each byte);
and resuming from the CRC of `b1` as the running value over `b2` equals
the CRC of the concatenation `b1 ++ b2`. -/
theorem spec_crc8_reference_and_incremental :
    (∀ data, CalculateCRC8 data = crc8_ref data) ∧
    (∀ b1 b2, crc8_from (CalculateCRC8 b1) b2 = CalculateCRC8 (b1 ++ b2)) := by
  constructor
  · intro data
    unfold CalculateCRC8 crc8_ref
    have h : crc8_update = crc8_ref_byte := by
      funext c b
      exact (crc8_ref_byte_eq c b).symm
    rw [h]
  · intro b1 b2
    unfold crc8_from CalculateCRC8
    rw [List.foldl_append]

/-! ### Checksum coverage -/

/-- C3 as stated is false: for event id 1 with empty payload the
encoder's trailing byte is `CalculateCRC8 [event_id] = 7`, but the CRC
over the length-prefixed region `[length, event_id] = [1, 1]` is 18. -/
theorem spec_checksum_coverage_cex :
    SendPacket 1 [] = [0xAA, 1, 1, 7] ∧ CalculateCRC8 [1, 1] ≠ 7 := by decide

theorem getD_append_len (l : List Nat) (a d : Nat) : (l ++ [a]).getD l.length d = a := by
  induction l with
  | nil => rfl
  | cons x xs ih =>
      simp only [List.cons_append, List.length_cons, List.getD_cons_succ]
      exact ih

theorem sendPacket_eq (e : Nat) (data : List Nat) (h : data.length ≤ 28) :
    SendPacket e data =
      0xAA :: (data.length + 1) :: ((e :: data) ++ [CalculateCRC8 (e :: data)]) := by
  simp [SendPacket, PACKET_START, Nat.mod_eq_of_lt (show data.length + 1 < 256 by omega)]

theorem sendPacket_getD1 (e : Nat) (data : List Nat) (h : data.length ≤ 28) :
    (SendPacket e data).getD 1 0 = data.length + 1 := by
  rw [sendPacket_eq e data h]
  rfl

theorem sendPacket_trailing (e : Nat) (data : List Nat) (h : data.length ≤ 28) :
    (SendPacket e data).getD (data.length + 3) 0 = CalculateCRC8 (e :: data) := by
  rw [sendPacket_eq e data h]
  simp only [List.cons_append, List.getD_cons_succ]
  exact getD_append_len data _ 0

theorem sendPacket_span (e : Nat) (data : List Nat) (h : data.length ≤ 28) :
    ((SendPacket e data).drop 2).take (data.length + 1) = e :: data := by
  rw [sendPacket_eq e data h]
  simp only [List.cons_append, List.drop_succ_cons, List.drop_zero, List.take_succ_cons,
    List.take_left]

theorem sendPacket_payload (e : Nat) (data : List Nat) (h : data.length ≤ 28) :
    ((SendPacket e data).drop 3).take data.length = data := by
  rw [sendPacket_eq e data h]
  simp only [List.cons_append, List.drop_succ_cons, List.drop_zero, List.take_left]

theorem sendPacket_valid (e : Nat) (data : List Nat) (h : data.length ≤ 28) :
    procValid (SendPacket e data) = true := by
  unfold procValid
  rw [sendPacket_getD1 e data h]
  rw [show 2 + (data.length + 1) = data.length + 3 from by omega]
  rw [sendPacket_trailing e data h, sendPacket_span e data h]
  simp

/-- C3 amended: the trailing checksum byte covers `[event_id,
payload...]` — `length` bytes starting at the event-id field, the
length byte itself excluded — both when `SendPacket` appends it and
when `ProcessReceivedPacket` recomputes it; the dispatcher acks `OK`
precisely when the received trailing byte equals that recomputation. -/
theorem spec_checksum_coverage_amended :
    (∀ e data, data.length ≤ 28 →
      (SendPacket e data).getD (data.length + 3) 0 =
        CalculateCRC8 (((SendPacket e data).drop 2).take ((SendPacket e data).getD 1 0))) ∧
    (∀ buffer, (ProcessReceivedPacket buffer).head? = some (Effect.uartTx okReply) ↔
      buffer.getD (2 + buffer.getD 1 0) 0 =
        CalculateCRC8 ((buffer.drop 2).take (buffer.getD 1 0))) := by
  constructor
  · intro e data h
    rw [sendPacket_getD1 e data h, sendPacket_span e data h, sendPacket_trailing e data h]
  · intro buffer
    have hv : procValid buffer = true ↔
        buffer.getD (2 + buffer.getD 1 0) 0 =
          CalculateCRC8 ((buffer.drop 2).take (buffer.getD 1 0)) := by
      unfold procValid
      exact beq_iff_eq
    cases hpv : procValid buffer with
    | true =>
        constructor
        · intro _
          exact hv.mp hpv
        · intro _
          simp [ProcessReceivedPacket, hpv]
    | false =>
        constructor
        · intro hhead
          exfalso
          simp [ProcessReceivedPacket, hpv, okReply, errReply] at hhead
        · intro heq
          exfalso
          have ht := hv.mpr heq
          rw [hpv] at ht
          exact Bool.false_ne_true ht

theorem spec_checksum_coverage_witness :
    (SendPacket 1 [7]).getD (List.length [7] + 3) 0 =
      CalculateCRC8 (((SendPacket 1 [7]).drop 2).take ((SendPacket 1 [7]).getD 1 0)) :=
  spec_checksum_coverage_amended.1 1 [7] (by decide)

/-! ### Frame decoder -/

theorem rxFeed_cons (s : RxState) (b : Nat) (rest : List Nat) :
    rxFeed s (b :: rest) =
      ((rxFeed (rxStep s b).1 rest).1,
        (rxStep s b).2.toList ++ (rxFeed (rxStep s b).1 rest).2) := rfl

theorem rxFeed_state2_complete :
    ∀ (rest buf : List Nat) (plen : Nat),
      rest ≠ [] → buf.length + rest.length = plen + 3 →
      rxFeed ⟨buf, 2, plen⟩ rest = (⟨[], 0, plen⟩, [buf ++ rest]) := by
  intro rest
  induction rest with
  | nil => intro buf plen hne _; exact absurd rfl hne
  | cons r rest' ih =>
      intro buf plen _ hlen
      rw [rxFeed_cons]
      cases rest' with
      | nil =>
          have hc : plen + 3 ≤ buf.length + 1 := by
            simp only [List.length_cons, List.length_nil] at hlen
            omega
          rw [show rxStep ⟨buf, 2, plen⟩ r = (⟨[], 0, plen⟩, some (buf ++ [r])) from by
            simp [rxStep, hc]]
          simp [rxFeed]
      | cons r2 rest'' =>
          have hc : ¬ plen + 3 ≤ buf.length + 1 := by
            simp only [List.length_cons] at hlen
            omega
          rw [show rxStep ⟨buf, 2, plen⟩ r = (⟨buf ++ [r], 2, plen⟩, none) from by
            simp [rxStep, hc]]
          rw [ih (buf ++ [r]) plen (by simp) (by simp only [List.length_append,
            List.length_cons, List.length_nil] at hlen ⊢; omega)]
          simp

/-- C1: round trip.  For every event id and every payload that fits the
fixed frame size (`data.length ≤ 28`, so the whole frame fits the
32-byte buffers), feeding the bytes produced by `SendPacket` one at a
time into the decoder started in Idle yields exactly one complete
frame, the decoder returns to Idle, the dispatcher's checksum check on
that frame succeeds, and the original event id and payload are
recovered from the frame. -/
theorem spec_roundtrip :
    ∀ (eventId : Nat) (data : List Nat), data.length ≤ 28 →
      rxFeed rxInit (SendPacket eventId data) =
        (⟨[], 0, data.length + 1⟩, [SendPacket eventId data]) ∧
      procValid (SendPacket eventId data) = true ∧
      (SendPacket eventId data).getD 2 0 = eventId ∧
      ((SendPacket eventId data).drop 3).take ((SendPacket eventId data).getD 1 0 - 1) = data := by
  intro e data h
  refine ⟨?_, sendPacket_valid e data h, ?_, ?_⟩
  · conv_lhs => rw [sendPacket_eq e data h]
    conv_rhs => rw [sendPacket_eq e data h]
    rw [rxFeed_cons]
    rw [show rxStep rxInit 0xAA = (⟨[0xAA], 1, 0⟩, none) from rfl]
    rw [rxFeed_cons]
    rw [show rxStep ⟨[0xAA], 1, 0⟩ (data.length + 1) =
          (⟨[0xAA, data.length + 1], 2, data.length + 1⟩, none) from rfl]
    rw [rxFeed_state2_complete ((e :: data) ++ [CalculateCRC8 (e :: data)])
          [0xAA, data.length + 1] (data.length + 1) (by simp)
          (by simp only [List.length_append, List.length_cons, List.length_nil]; omega)]
    simp
  · rw [sendPacket_eq e data h]
    rfl
  · rw [sendPacket_getD1 e data h]
    rw [show data.length + 1 - 1 = data.length from by omega]
    exact sendPacket_payload e data h

theorem spec_roundtrip_witness :
    rxFeed rxInit (SendPacket 3 [1]) = (⟨[], 0, 2⟩, [SendPacket 3 [1]]) ∧
    procValid (SendPacket 3 [1]) = true ∧
    (SendPacket 3 [1]).getD 2 0 = 3 ∧
    ((SendPacket 3 [1]).drop 3).take ((SendPacket 3 [1]).getD 1 0 - 1) = [1] :=
  spec_roundtrip 3 [1] (by decide)

/-- C2: the overflow guard the spec describes does not exist in the
code.  After the length byte 30 (declared length 30, so
`packetLength + 3 = 33` bytes must be buffered while `packetBuffer` has
`BUFFER_SIZE = 32` slots) the decoder stays in the data-collecting
state instead of resetting to Idle, and feeding 31 further bytes makes
it write 33 bytes — the 33rd write is `packetBuffer[32]`, one past the
end of the 32-byte array — and emit the oversized frame. -/
theorem spec_overflow_guard_missing :
    (rxFeed rxInit [0xAA, 30]).1 = ⟨[0xAA, 30], 2, 30⟩ ∧
    (rxFeed rxInit ([0xAA, 30] ++ List.replicate 31 0)).2 =
      [[0xAA, 30] ++ List.replicate 31 0] ∧
    ([0xAA, 30] ++ List.replicate 31 0).length = 33 ∧
    BUFFER_SIZE < 33 := by decide

/-- C10: zero-length frame.  From Idle, the stream `[0xAA, 0x00, b]`
completes a frame at the single post-length byte `b`; the dispatcher
then reads `b` both as the event id (`buffer[2]`) and as the received
checksum (`buffer[2 + 0]`), recomputes the CRC-8 of the empty span
(which is 0), and so replies `"OK\n"` with no collaborator action
exactly when `b = 0`, replying `"ERR\n"` otherwise. -/
theorem spec_zero_length_frame :
    ∀ b : Nat,
      rxFeed rxInit [0xAA, 0, b] = (⟨[], 0, 0⟩, [[0xAA, 0, b]]) ∧
      [0xAA, 0, b].getD 2 0 = b ∧
      [0xAA, 0, b].getD (2 + [0xAA, 0, b].getD 1 0) 0 = b ∧
      CalculateCRC8 (([0xAA, 0, b].drop 2).take ([0xAA, 0, b].getD 1 0)) = 0 ∧
      (b = 0 → ProcessReceivedPacket [0xAA, 0, b] = [Effect.uartTx okReply]) ∧
      (b ≠ 0 → ProcessReceivedPacket [0xAA, 0, b] = [Effect.uartTx errReply]) := by
  intro b
  refine ⟨rfl, rfl, rfl, rfl, ?_, ?_⟩
  · intro hb
    subst hb
    decide
  · intro hb
    cases b with
    | zero => exact absurd rfl hb
    | succ n => rfl

theorem spec_zero_length_frame_witness :
    ProcessReceivedPacket [0xAA, 0, 5] = [Effect.uartTx errReply] :=
  (spec_zero_length_frame 5).2.2.2.2.2 (by decide)

/-! ### Event dispatcher -/

theorem dispatchActions_no_tx (e : Nat) (d : List Nat) :
    (dispatchActions e d).countP Effect.isTx = 0 := by
  unfold dispatchActions
  split
  · rfl
  · rfl
  · split
    · rfl
    · rfl
  · split
    · rfl
    · rfl
  · rfl

/-- C5: reply atomicity.  A fully assembled frame whose checksum check
fails makes the dispatcher transmit exactly the literal `"ERR\n"` and
nothing else (no actuator write, no display write); a frame whose
checksum check succeeds makes it transmit `"OK\n"` first; and in every
case exactly one UART reply is transmitted per decoded frame. -/
theorem spec_reply_atomicity :
    ∀ buffer : List Nat,
      (procValid buffer = false → ProcessReceivedPacket buffer = [Effect.uartTx errReply]) ∧
      (procValid buffer = true →
        (ProcessReceivedPacket buffer).head? = some (Effect.uartTx okReply)) ∧
      (ProcessReceivedPacket buffer).countP Effect.isTx = 1 := by
  intro buffer
  refine ⟨?_, ?_, ?_⟩
  · intro h
    simp [ProcessReceivedPacket, h]
  · intro h
    simp [ProcessReceivedPacket, h]
  · cases h : procValid buffer
    · simp [ProcessReceivedPacket, h, List.countP_cons, Effect.isTx]
    · simp [ProcessReceivedPacket, h, List.countP_cons, Effect.isTx, dispatchActions_no_tx]

theorem spec_reply_atomicity_witness :
    ProcessReceivedPacket [0xAA, 1, 6, 99] = [Effect.uartTx errReply] :=
  (spec_reply_atomicity [0xAA, 1, 6, 99]).1 (by decide)

theorem setServoAngle_min (a : Nat) :
    SetServoAngle a = Effect.pwmSet (50 + min a 180 * 100 / 180) := by
  simp only [SetServoAngle]
  have h : (if a > 180 then 180 else a) = min a 180 := by
    split <;> omega
  rw [h]

/-- C7: angle clamping.  For every checksum-valid frame with event id 2
(`SetActuator`), whatever the payload byte is, the dispatcher replies
`OK` and performs exactly the PWM compare write for the payload value
clamped into `[0, 180]` — out-of-range angles are clamped, never
rejected and never answered with an error reply. -/
theorem spec_angle_clamping :
    ∀ buffer : List Nat, procValid buffer = true → buffer.getD 2 0 = 2 →
      ProcessReceivedPacket buffer =
        [Effect.uartTx okReply,
         Effect.pwmSet (50 + min ((buffer.drop 3).getD 0 0) 180 * 100 / 180)] ∧
      min ((buffer.drop 3).getD 0 0) 180 ≤ 180 := by
  intro buffer hv he
  have he' : buffer[2]?.getD 0 = 2 := by simpa using he
  constructor
  · simp [ProcessReceivedPacket, hv, he', dispatchActions, setServoAngle_min]
  · exact Nat.min_le_right _ _

theorem spec_angle_clamping_witness :
    ProcessReceivedPacket [0xAA, 2, 2, 200, 92] =
      [Effect.uartTx okReply, Effect.pwmSet (50 + min 200 180 * 100 / 180)] ∧
    min (200 : Nat) 180 ≤ 180 :=
  spec_angle_clamping [0xAA, 2, 2, 200, 92] (by decide) (by decide)

/-- C8: unknown event ids.  A checksum-valid frame whose event id is
none of 0x01..0x05 is acked with `"OK\n"` and triggers no actuator
write and no display write: the switch falls through with no action. -/
theorem spec_unknown_event :
    ∀ buffer : List Nat, procValid buffer = true →
      buffer.getD 2 0 ≠ 1 → buffer.getD 2 0 ≠ 2 → buffer.getD 2 0 ≠ 3 →
      buffer.getD 2 0 ≠ 4 → buffer.getD 2 0 ≠ 5 →
      ProcessReceivedPacket buffer = [Effect.uartTx okReply] := by
  intro buffer hv h1 h2 h3 h4 h5
  have hd : dispatchActions (buffer.getD 2 0) (buffer.drop 3) = [] := by
    unfold dispatchActions
    split <;> simp_all
  have hd' : dispatchActions (buffer[2]?.getD 0) (buffer.drop 3) = [] := by simpa using hd
  simp [ProcessReceivedPacket, hv, hd']

theorem spec_unknown_event_witness :
    ProcessReceivedPacket [0xAA, 1, 6, 18] = [Effect.uartTx okReply] :=
  spec_unknown_event [0xAA, 1, 6, 18] (by decide) (by decide) (by decide) (by decide)
    (by decide) (by decide)

/-- C9: no mid-frame resynchronization.  A byte equal to the start
marker 0xAA arriving while the decoder is reading the length or the
payload is consumed positionally exactly like any other byte value:
the resulting state, buffer length and frame-emission behaviour are
identical to those for an arbitrary byte, the marker is appended to the
in-flight buffer (or ends up inside the completed frame), and frame
assembly is never restarted. -/
theorem spec_no_midframe_resync :
    ∀ (s : RxState) (b : Nat), s.st = 1 ∨ s.st = 2 →
      ((rxStep s b).1.st = (rxStep s 0xAA).1.st ∧
       (rxStep s b).1.buf.length = (rxStep s 0xAA).1.buf.length ∧
       (rxStep s b).2.isSome = (rxStep s 0xAA).2.isSome) ∧
      ((rxStep s 0xAA).2 = none → (rxStep s 0xAA).1.buf = s.buf ++ [0xAA]) ∧
      (∀ f, (rxStep s 0xAA).2 = some f → f = s.buf ++ [0xAA]) := by
  intro s b hst
  rcases s with ⟨buf, st, plen⟩
  rcases hst with h | h
  · cases h
    refine ⟨⟨rfl, ?_, rfl⟩, ?_, ?_⟩
    · simp [rxStep]
    · intro _
      rfl
    · intro f hf
      exact Option.noConfusion hf
  · cases h
    by_cases hc : plen + 3 ≤ buf.length + 1
    · rw [show rxStep ⟨buf, 2, plen⟩ b = (⟨[], 0, plen⟩, some (buf ++ [b])) from by
        simp [rxStep, hc]]
      rw [show rxStep ⟨buf, 2, plen⟩ 0xAA = (⟨[], 0, plen⟩, some (buf ++ [0xAA])) from by
        simp [rxStep, hc]]
      refine ⟨⟨rfl, rfl, rfl⟩, ?_, ?_⟩
      · intro hnone
        exact Option.noConfusion hnone
      · intro f hf
        exact (Option.some.inj hf).symm
    · rw [show rxStep ⟨buf, 2, plen⟩ b = (⟨buf ++ [b], 2, plen⟩, none) from by
        simp [rxStep, hc]]
      rw [show rxStep ⟨buf, 2, plen⟩ 0xAA = (⟨buf ++ [0xAA], 2, plen⟩, none) from by
        simp [rxStep, hc]]
      refine ⟨⟨rfl, ?_, rfl⟩, ?_, ?_⟩
      · simp
      · intro _
        rfl
      · intro f hf
        exact Option.noConfusion hf

theorem spec_no_midframe_resync_witness :
    ((rxStep ⟨[0xAA, 2], 2, 2⟩ 5).1.st = (rxStep ⟨[0xAA, 2], 2, 2⟩ 0xAA).1.st ∧
     (rxStep ⟨[0xAA, 2], 2, 2⟩ 5).1.buf.length = (rxStep ⟨[0xAA, 2], 2, 2⟩ 0xAA).1.buf.length ∧
     (rxStep ⟨[0xAA, 2], 2, 2⟩ 5).2.isSome = (rxStep ⟨[0xAA, 2], 2, 2⟩ 0xAA).2.isSome) ∧
    ((rxStep ⟨[0xAA, 2], 2, 2⟩ 0xAA).2 = none →
      (rxStep ⟨[0xAA, 2], 2, 2⟩ 0xAA).1.buf = [0xAA, 2] ++ [0xAA]) ∧
    (∀ f, (rxStep ⟨[0xAA, 2], 2, 2⟩ 0xAA).2 = some f → f = [0xAA, 2] ++ [0xAA]) :=
  spec_no_midframe_resync ⟨[0xAA, 2], 2, 2⟩ 5 (Or.inr rfl)

/-! ### Presence monitor (debounce) -/

theorem runTicks_cons (s : PresenceState) (now raw : Nat) (rest : List (Nat × Nat)) :
    runTicks s ((now, raw) :: rest) =
      ((runTicks (loopTick s now raw).1 rest).1,
        (loopTick s now raw).2 ++ (runTicks (loopTick s now raw).1 rest).2) := rfl

theorem changeCount_append (l1 l2 : List PEvent) :
    changeCount (l1 ++ l2) = changeCount l1 + changeCount l2 := by
  simp [changeCount, List.countP_append]

theorem changeCount_hb (c : Nat) (cond : Prop) [Decidable cond] :
    changeCount (if cond then [PEvent.heartbeat c] else []) = 0 := by
  split <;> rfl

/-- C6 as stated fails at the boundary of the debounce interval: from
the power-on state, the raw reading transitions to 1 at time 100 and is
still 1 at time 150 — a single transition held stable for exactly the
debounce interval of 50 time-units — yet no change event is emitted,
because the code fires only when the elapsed time strictly exceeds
`DEBOUNCE_TIME` (`(HAL_GetTick() - lastDebounceTime) > DEBOUNCE_TIME`).
One tick later (time 151) the event fires. -/
theorem spec_debounce_cex :
    changeCount (runTicks presenceInit [(100, 1), (150, 1)]).2 = 0 ∧
    changeCount (runTicks presenceInit [(100, 1), (151, 1)]).2 = 1 := by decide

theorem runTicks_fastToggle :
    ∀ (ticks : List (Nat × Nat)) (s : PresenceState),
      fastToggle s.lastCarDetected s.lastDebounceTime ticks = true →
      changeCount (runTicks s ticks).2 = 0 := by
  intro ticks
  induction ticks with
  | nil => intro s _; rfl
  | cons tr rest ih =>
      obtain ⟨t, r⟩ := tr
      intro s hft
      simp only [fastToggle, Bool.and_eq_true] at hft
      obtain ⟨hhd, htl⟩ := hft
      rw [runTicks_cons]
      by_cases hr : r = s.lastCarDetected
      · have hne : ¬ (r ≠ s.lastCarDetected) := by simpa using hr
        rw [if_pos hr] at hhd
        have hle : t - s.lastDebounceTime ≤ DEBOUNCE_TIME := of_decide_eq_true hhd
        have hga : ¬ (DEBOUNCE_TIME < t - s.lastDebounceTime ∧ s.carDetected ≠ r) :=
          fun hp => (Nat.not_lt.mpr hle) hp.1
        rw [if_pos hr] at htl
        simp only [loopTick, if_neg hne, if_neg hga]
        rw [List.nil_append, changeCount_append, changeCount_hb, Nat.zero_add]
        exact ih ⟨s.carDetected, r, s.lastDebounceTime,
          if 1000 < t - s.lastDetectionSendTime then t else s.lastDetectionSendTime⟩ htl
      · have hne : r ≠ s.lastCarDetected := hr
        have hga : ¬ (DEBOUNCE_TIME < t - t ∧ s.carDetected ≠ r) := by
          intro hp
          rw [Nat.sub_self] at hp
          exact Nat.not_lt_zero _ hp.1
        rw [if_neg hr] at htl
        simp only [loopTick, if_pos hne, if_neg hga]
        rw [List.nil_append, changeCount_append, changeCount_hb, Nat.zero_add]
        exact ih ⟨s.carDetected, r, t,
          if 1000 < t - s.lastDetectionSendTime then t else s.lastDetectionSendTime⟩ htl

theorem runTicks_stable (b ldt0 : Nat) :
    ∀ (ticks : List (Nat × Nat)) (ldst : Nat),
      (∀ p ∈ ticks, p.2 = b) →
      changeCount (runTicks ⟨b, b, ldt0, ldst⟩ ticks).2 = 0 := by
  intro ticks
  induction ticks with
  | nil => intro ldst _; rfl
  | cons tr rest ih =>
      obtain ⟨t, r⟩ := tr
      intro ldst hall
      have hrb : r = b := hall (t, r) (by simp)
      subst hrb
      rw [runTicks_cons]
      have hne : ¬ (r ≠ (⟨r, r, ldt0, ldst⟩ : PresenceState).lastCarDetected) := by simp
      have hga : ¬ (DEBOUNCE_TIME < t - ldt0 ∧
          (⟨r, r, ldt0, ldst⟩ : PresenceState).carDetected ≠ r) := by simp
      simp only [loopTick, if_neg hne, if_neg hga]
      rw [List.nil_append, changeCount_append, changeCount_hb, Nat.zero_add]
      exact ih _ (fun p hp => hall p (List.mem_cons_of_mem _ hp))

theorem runTicks_pending (a b t0 : Nat) (hab : a ≠ b) :
    ∀ (ticks : List (Nat × Nat)) (ldst : Nat),
      (∀ p ∈ ticks, p.2 = b) →
      (∃ p ∈ ticks, DEBOUNCE_TIME < p.1 - t0) →
      changeCount (runTicks ⟨a, b, t0, ldst⟩ ticks).2 = 1 := by
  intro ticks
  induction ticks with
  | nil =>
      intro ldst _ hex
      simp at hex
  | cons tr rest ih =>
      obtain ⟨t, r⟩ := tr
      intro ldst hall hex
      have hrb : r = b := hall (t, r) (by simp)
      subst hrb
      rw [runTicks_cons]
      have hne : ¬ (r ≠ (⟨a, r, t0, ldst⟩ : PresenceState).lastCarDetected) := by simp
      by_cases htr : DEBOUNCE_TIME < t - t0
      · have hga : DEBOUNCE_TIME < t - t0 ∧ (⟨a, r, t0, ldst⟩ : PresenceState).carDetected ≠ r :=
          ⟨htr, hab⟩
        simp only [loopTick, if_neg hne, if_pos hga]
        rw [changeCount_append, changeCount_append, changeCount_hb]
        rw [runTicks_stable r t0 rest _ (fun p hp => hall p (List.mem_cons_of_mem _ hp))]
        rfl
      · have hga : ¬ (DEBOUNCE_TIME < t - t0 ∧
            (⟨a, r, t0, ldst⟩ : PresenceState).carDetected ≠ r) :=
          fun hp => htr hp.1
        have hex' : ∃ p ∈ rest, DEBOUNCE_TIME < p.1 - t0 := by
          rcases hex with ⟨q, hq, hqt⟩
          rcases List.mem_cons.mp hq with hq1 | hq2
          · rw [hq1] at hqt
            exact absurd hqt htr
          · exact ⟨q, hq2, hqt⟩
        simp only [loopTick, if_neg hne, if_neg hga]
        rw [List.nil_append, changeCount_append, changeCount_hb, Nat.zero_add]
        exact ih _ (fun p hp => hall p (List.mem_cons_of_mem _ hp)) hex'

/-- C6 amended: (1) over any tick trace in which the raw reading is
never stable for more than the debounce interval (every tick comes at
most `DEBOUNCE_TIME = 50` time-units after the most recent raw change),
the monitor emits no `CarDetected` change event; (2) after a single raw
transition at time `t0` (away from the settled value `a`), if the
reading then stays at the new value and some later tick comes *more*
than 50 time-units after `t0` — strictly more, not `≥` as the claim
says, which is the boundary the counterexample exhibits — exactly one
change event is emitted. -/
theorem spec_debounce_amended :
    (∀ (ticks : List (Nat × Nat)) (s : PresenceState),
      fastToggle s.lastCarDetected s.lastDebounceTime ticks = true →
      changeCount (runTicks s ticks).2 = 0) ∧
    (∀ (a b t0 : Nat) (rest : List (Nat × Nat)) (s : PresenceState),
      s.carDetected = a → s.lastCarDetected = a → a ≠ b →
      (∀ p ∈ rest, p.2 = b) →
      (∃ p ∈ rest, DEBOUNCE_TIME < p.1 - t0) →
      changeCount (runTicks s ((t0, b) :: rest)).2 = 1) := by
  constructor
  · exact fun ticks s h => runTicks_fastToggle ticks s h
  · intro a b t0 rest s hcd hlcd hab hall hex
    rw [runTicks_cons]
    have hne : b ≠ s.lastCarDetected := by
      rw [hlcd]
      exact fun h => hab h.symm
    have hga : ¬ (DEBOUNCE_TIME < t0 - t0 ∧ s.carDetected ≠ b) := by
      intro hp
      rw [Nat.sub_self] at hp
      exact Nat.not_lt_zero _ hp.1
    simp only [loopTick, if_pos hne, if_neg hga]
    rw [List.nil_append, changeCount_append, changeCount_hb, Nat.zero_add, hcd]
    exact runTicks_pending a b t0 hab rest _ hall hex

theorem spec_debounce_amended_witness :
    changeCount (runTicks presenceInit [(10, 1), (30, 0), (45, 1)]).2 = 0 :=
  spec_debounce_amended.1 [(10, 1), (30, 0), (45, 1)] presenceInit (by decide)
